import Mathlib

/-!
Shallow embedding of the trip membership / permission-authorization core of
the wandr backend (app/services/trip_service.py together with the data model
of app/models/trip.py and the schemas of app/schemas/trip.py).

UUIDs are modelled as Nat (trip ids are drawn from a fresh-id counter, user
ids are arbitrary Nat).  JSON dictionaries (permission maps, trip_data) are
modelled as association lists over Python-like values, so that Python
truthiness of a stored value is expressible.  The database session is an
explicit record of table contents; each service method is a pure function
from the store (plus arguments) to a result and the updated store, with an
HTTPException modelled as an error value carrying status code and detail.
-/

/-- Python-like JSON scalar values, enough to express the untyped permission
maps (`dict[str, Any]`) that the schemas allow. -/
inductive PyVal where
  | pBool (b : Bool)
  | pStr (s : String)
  | pInt (n : Int)
deriving DecidableEq

/-- Python truthiness of a value, as applied by `if not x` / `if x`. -/
def PyVal.truthy : PyVal → Bool
  | .pBool b => b
  | .pStr s => !s.isEmpty
  | .pInt n => n != 0

/-- A Python dict of string keys, as an association list. -/
abbrev PyDict := List (String × PyVal)

/-- `d.get(k)`: first binding of `k`, if any. -/
def dictGet (d : PyDict) (k : String) : Option PyVal :=
  match d with
  | [] => none
  | (k2, v) :: rest => if k2 = k then some v else dictGet rest k

/-- Python `a or b` for an optional dict (`None` and the empty dict are both
falsy, so either falls through to `b`). -/
def pyDictOr (a : Option PyDict) (b : PyDict) : PyDict :=
  match a with
  | none => b
  | some d => if d.isEmpty then b else d

/-- TripStatus enum of app/schemas/trip.py. -/
inductive TripStatus where
  | planning
  | active
  | completed
  | cancelled
deriving DecidableEq

/-- TripMemberRole enum of app/schemas/trip.py. -/
inductive TripMemberRole where
  | organizer
  | participant
  | viewer
deriving DecidableEq

/-- TripActivityType enum of app/schemas/trip.py. -/
inductive TripActivityType where
  | created
  | updated
  | member_added
  | member_removed
  | member_role_changed
  | comment_added
deriving DecidableEq

/-- Trip row (app/models/trip.py).  Dates are modelled as day numbers. -/
structure Trip where
  id : Nat
  title : String
  description : Option String
  start_date : Option Nat
  end_date : Option Nat
  status : TripStatus
  trip_data : PyDict
  created_by : Nat
deriving DecidableEq

/-- TripMember row (app/models/trip.py).  The row id is irrelevant to the
service logic; the (trip_id, user_id) pair identifies the membership. -/
structure TripMember where
  trip_id : Nat
  user_id : Nat
  role : TripMemberRole
  permissions : PyDict
deriving DecidableEq

/-- TripUpdate patch contents, as produced by `model_dump(exclude_unset=True)`:
`none` means the field was not present in the patch. -/
structure TripUpdate where
  title : Option String := none
  description : Option (Option String) := none
  start_date : Option (Option Nat) := none
  end_date : Option (Option Nat) := none
  status : Option TripStatus := none
  trip_data : Option PyDict := none
deriving DecidableEq

/-- Activity payloads actually written by the service: `{"title": ...}`,
the update patch, `{"added_user_id": ..., "role": ...}`,
`{"removed_user_id": ...}`. -/
inductive ActivityData where
  | createdData (title : String)
  | updatedData (patch : TripUpdate)
  | memberAddedData (added_user_id : Nat) (role : TripMemberRole)
  | memberRemovedData (removed_user_id : Nat)
deriving DecidableEq

/-- TripActivity row (app/models/trip.py). -/
structure TripActivity where
  trip_id : Nat
  user_id : Option Nat
  activity_type : TripActivityType
  activity_data : ActivityData
deriving DecidableEq

/-- TripCreate schema (app/schemas/trip.py): title required, dates required,
trip_data an optional dict defaulting to `{}`. -/
structure TripCreate where
  title : String
  description : Option String := none
  start_date : Nat
  end_date : Nat
  trip_data : Option PyDict := some []
deriving DecidableEq

/-- TripMemberCreate schema (app/schemas/trip.py): role defaults to
participant, permissions is `dict[str, Any] | None` with default `{}`. -/
structure TripMemberCreate where
  user_id : Nat
  role : TripMemberRole := TripMemberRole.participant
  permissions : Option PyDict := some []
deriving DecidableEq

/-- HTTPException as raised by the service: status code and detail string. -/
structure HTTPExc where
  status_code : Nat
  detail : String
deriving DecidableEq

/-- Outcome of a service call that may raise an HTTPException. -/
inductive SvcResult (α : Type) where
  | ok (a : α)
  | err (e : HTTPExc)
deriving DecidableEq

/-- Database state seen by the service: the three trip tables, the identity
store's user ids, and the fresh-id source for new trips. -/
structure DB where
  trips : List Trip
  members : List TripMember
  activities : List TripActivity
  users : List Nat
  nextTripId : Nat
deriving DecidableEq

def emptyDB : DB := ⟨[], [], [], [], 0⟩

/-- `select(Trip).where(Trip.id == trip_id)`, `scalar_one_or_none`. -/
def findTrip (db : DB) (trip_id : Nat) : Option Trip :=
  db.trips.find? (fun t => t.id == trip_id)

/-- `select(TripMember).where(trip_id == .. and user_id == ..)`,
`scalar_one_or_none`. -/
def findMember (db : DB) (trip_id user_id : Nat) : Option TripMember :=
  db.members.find? (fun m => m.trip_id == trip_id && m.user_id == user_id)

/-- `select(User).where(User.id == ..)` is not `None`. -/
def userExists (db : DB) (user_id : Nat) : Bool :=
  db.users.contains user_id

/-- `TripService._has_trip_permission`: fetch the membership's permission
dict; `if not permissions: return False`; then
`return permissions.get(permission, False)` (truthiness at the use sites). -/
def has_trip_permission (db : DB) (trip_id user_id : Nat) (permission : String) : Bool :=
  match findMember db trip_id user_id with
  | none => false
  | some m =>
    if m.permissions.isEmpty then false
    else match dictGet m.permissions permission with
      | none => false
      | some v => v.truthy

/-- `TripService._get_default_permissions`. -/
def get_default_permissions (role : TripMemberRole) : PyDict :=
  match role with
  | .organizer =>
    [("edit", .pBool true), ("delete", .pBool true), ("invite", .pBool true),
     ("manage_members", .pBool true), ("view", .pBool true)]
  | .participant =>
    [("edit", .pBool false), ("delete", .pBool false), ("invite", .pBool false),
     ("manage_members", .pBool false), ("view", .pBool true)]
  | .viewer =>
    [("edit", .pBool false), ("delete", .pBool false), ("invite", .pBool false),
     ("manage_members", .pBool false), ("view", .pBool true)]

/-- `TripService.create_trip`: insert the Trip (status column default
"planning"), a TripMember for the creator with the literal permission dict
`{"edit": True, "delete": True, "invite": True, "manage_members": True}`,
and a `created` activity with `{"title": trip.title}`. -/
def create_trip (db : DB) (trip_data : TripCreate) (user_id : Nat) : Trip × DB :=
  let trip : Trip :=
    { id := db.nextTripId
      title := trip_data.title
      description := trip_data.description
      start_date := some trip_data.start_date
      end_date := some trip_data.end_date
      status := TripStatus.planning
      trip_data := pyDictOr trip_data.trip_data []
      created_by := user_id }
  let trip_member : TripMember :=
    { trip_id := trip.id
      user_id := user_id
      role := TripMemberRole.organizer
      permissions :=
        [("edit", .pBool true), ("delete", .pBool true), ("invite", .pBool true),
         ("manage_members", .pBool true)] }
  let activity : TripActivity :=
    { trip_id := trip.id
      user_id := some user_id
      activity_type := TripActivityType.created
      activity_data := ActivityData.createdData trip.title }
  (trip,
   { db with
       trips := db.trips ++ [trip]
       members := db.members ++ [trip_member]
       activities := db.activities ++ [activity]
       nextTripId := db.nextTripId + 1 })

/-- `setattr(trip, field, value)` for every field present in
`model_dump(exclude_unset=True)`. -/
def applyUpdate (t : Trip) (u : TripUpdate) : Trip :=
  { t with
      title := u.title.getD t.title
      description := u.description.getD t.description
      start_date := u.start_date.getD t.start_date
      end_date := u.end_date.getD t.end_date
      status := u.status.getD t.status
      trip_data := u.trip_data.getD t.trip_data }

/-- `TripService.update_trip`: edit-permission check first (returning `None`),
then trip lookup (returning `None`), then the field updates plus an
`updated` activity carrying the patch. -/
def update_trip (db : DB) (trip_id : Nat) (trip_data : TripUpdate) (user_id : Nat) :
    Option Trip × DB :=
  if !has_trip_permission db trip_id user_id "edit" then (none, db)
  else
    match findTrip db trip_id with
    | none => (none, db)
    | some trip =>
      let trip2 := applyUpdate trip trip_data
      let activity : TripActivity :=
        { trip_id := trip_id
          user_id := some user_id
          activity_type := TripActivityType.updated
          activity_data := ActivityData.updatedData trip_data }
      (some trip2,
       { db with
           trips := db.trips.map (fun t => if t.id == trip_id then trip2 else t)
           activities := db.activities ++ [activity] })

/-- `TripService.delete_trip`: delete-permission check, trip lookup, then
`db.delete(trip)`.  The Trip Store's foreign-key handling removes the trip's
TripMember and TripActivity rows with it (the service appends no activity). -/
def delete_trip (db : DB) (trip_id user_id : Nat) : Bool × DB :=
  if !has_trip_permission db trip_id user_id "delete" then (false, db)
  else
    match findTrip db trip_id with
    | none => (false, db)
    | some _ =>
      (true,
       { db with
           trips := db.trips.filter (fun t => t.id != trip_id)
           members := db.members.filter (fun m => m.trip_id != trip_id)
           activities := db.activities.filter (fun a => a.trip_id != trip_id) })

/-- `TripService.add_trip_member`: invite-permission check (403), target-user
existence check (404), duplicate-membership check (400), then the insert with
`permissions = member_data.permissions or default` and a `member_added`
activity with `{"added_user_id": ..., "role": ...}`. -/
def add_trip_member (db : DB) (trip_id : Nat) (member_data : TripMemberCreate)
    (user_id : Nat) : SvcResult TripMember × DB :=
  if !has_trip_permission db trip_id user_id "invite" then
    (.err ⟨403, "No permission to add members to this trip"⟩, db)
  else if !userExists db member_data.user_id then
    (.err ⟨404, "User not found"⟩, db)
  else
    match findMember db trip_id member_data.user_id with
    | some _ => (.err ⟨400, "User is already a member of this trip"⟩, db)
    | none =>
      let trip_member : TripMember :=
        { trip_id := trip_id
          user_id := member_data.user_id
          role := member_data.role
          permissions :=
            pyDictOr member_data.permissions (get_default_permissions member_data.role) }
      let activity : TripActivity :=
        { trip_id := trip_id
          user_id := some user_id
          activity_type := TripActivityType.member_added
          activity_data := ActivityData.memberAddedData member_data.user_id member_data.role }
      (.ok trip_member,
       { db with
           members := db.members ++ [trip_member]
           activities := db.activities ++ [activity] })

/-- `db.delete(member)` for the membership row found by `scalar_one_or_none`
(the first matching row). -/
def removeFirstMember (ms : List TripMember) (trip_id user_id : Nat) : List TripMember :=
  match ms with
  | [] => []
  | m :: rest =>
    if m.trip_id == trip_id && m.user_id == user_id then rest
    else m :: removeFirstMember rest trip_id user_id

/-- `TripService.remove_trip_member`: manage_members-permission check (403),
then the creator guard `if trip and trip.created_by == member_user_id` (400),
then member lookup (returning `False`), then the delete plus a
`member_removed` activity with `{"removed_user_id": ...}`. -/
def remove_trip_member (db : DB) (trip_id member_user_id user_id : Nat) :
    SvcResult Bool × DB :=
  if !has_trip_permission db trip_id user_id "manage_members" then
    (.err ⟨403, "No permission to remove members from this trip"⟩, db)
  else if (match findTrip db trip_id with
           | some trip => trip.created_by == member_user_id
           | none => false) then
    (.err ⟨400, "Cannot remove trip creator"⟩, db)
  else
    match findMember db trip_id member_user_id with
    | none => (.ok false, db)
    | some _ =>
      let activity : TripActivity :=
        { trip_id := trip_id
          user_id := some user_id
          activity_type := TripActivityType.member_removed
          activity_data := ActivityData.memberRemovedData member_user_id }
      (.ok true,
       { db with
           members := removeFirstMember db.members trip_id member_user_id
           activities := db.activities ++ [activity] })

/-- One observable transition of the store: a service mutation, or the
identity store gaining a user (user registration, outside this service). -/
inductive Step : DB → DB → Prop where
  | addUser (db : DB) (uid : Nat) :
      Step db { db with users := db.users ++ [uid] }
  | createTrip (db : DB) (tc : TripCreate) (uid : Nat) :
      Step db (create_trip db tc uid).2
  | updateTrip (db : DB) (tid : Nat) (tu : TripUpdate) (uid : Nat) :
      Step db (update_trip db tid tu uid).2
  | deleteTrip (db : DB) (tid uid : Nat) :
      Step db (delete_trip db tid uid).2
  | addMember (db : DB) (tid : Nat) (md : TripMemberCreate) (uid : Nat) :
      Step db (add_trip_member db tid md uid).2
  | removeMember (db : DB) (tid target uid : Nat) :
      Step db (remove_trip_member db tid target uid).2

/-- States reachable from the empty store by service operations. -/
inductive Reachable : DB → Prop where
  | empty : Reachable emptyDB
  | step {db db2 : DB} : Reachable db → Step db db2 → Reachable db2

/-! ### Concrete store states for evaluating the operations

A small scenario: users 1 and 2 register, user 1 creates a trip (id 0) and
adds user 2 as a participant with the role-default permissions. -/

def tcW : TripCreate := { title := "Road Trip", start_date := 1, end_date := 10 }

def dbU1 : DB := { emptyDB with users := emptyDB.users ++ [1] }

def dbU2 : DB := { dbU1 with users := dbU1.users ++ [2] }

def dbT : DB := (create_trip dbU2 tcW 1).2

def mdP : TripMemberCreate := { user_id := 2, role := TripMemberRole.participant,
                                permissions := none }

def dbM : DB := (add_trip_member dbT 0 mdP 1).2

/-- `dbM` with one more registered user (id 3) who is not yet a member. -/
def dbM3 : DB := { dbM with users := dbM.users ++ [3] }

def tcC1 : TripCreate := { title := "T", start_date := 1, end_date := 2 }

/-- Member data with an explicitly supplied empty permission map. -/
def mdEmptyPerm : TripMemberCreate := { user_id := 2, role := TripMemberRole.viewer,
                                        permissions := some [] }

/-- Member data with an explicit non-empty permission map overriding the
viewer default. -/
def mdOverride : TripMemberCreate := { user_id := 2, role := TripMemberRole.viewer,
                                       permissions := some [("edit", PyVal.pBool true)] }

def mOverride : TripMember := { trip_id := 0, user_id := 2, role := TripMemberRole.viewer,
                                permissions := [("edit", PyVal.pBool true)] }

/-- Member data whose permission map stores a non-boolean (string) value. -/
def mdStr : TripMemberCreate := { user_id := 2, role := TripMemberRole.viewer,
                                  permissions := some [("edit", PyVal.pStr "no")] }

def mStr : TripMember := { trip_id := 0, user_id := 2, role := TripMemberRole.viewer,
                           permissions := [("edit", PyVal.pStr "no")] }

/-- Member data adding the fresh user 3 with participant defaults. -/
def mdNew : TripMemberCreate := { user_id := 3, role := TripMemberRole.participant,
                                  permissions := none }

def mPart : TripMember := { trip_id := 0, user_id := 2, role := TripMemberRole.participant,
                            permissions := get_default_permissions TripMemberRole.participant }

def tuEmpty : TripUpdate := {}

/-! ### Basic facts about the store queries -/

theorem removeFirstMember_sublist (ms : List TripMember) (tid uid : Nat) :
    List.Sublist (removeFirstMember ms tid uid) ms := by
  induction ms with
  | nil => simp [removeFirstMember]
  | cons m rest ih =>
    rw [removeFirstMember]
    split
    · exact List.sublist_cons_self m rest
    · exact List.Sublist.cons₂ m ih

theorem mem_removeFirstMember {ms : List TripMember} {tid uid : Nat} {m : TripMember}
    (hm : m ∈ ms) (hk : ¬(m.trip_id = tid ∧ m.user_id = uid)) :
    m ∈ removeFirstMember ms tid uid := by
  induction ms with
  | nil => cases hm
  | cons a rest ih =>
    rw [removeFirstMember]
    rcases List.mem_cons.mp hm with rfl | hm2
    · have hc : ¬((m.trip_id == tid && m.user_id == uid) = true) := by
        simp only [Bool.and_eq_true, beq_iff_eq]
        exact hk
      rw [if_neg hc]
      exact List.mem_cons_self m _
    · split
      · exact hm2
      · exact List.mem_cons_of_mem a (ih hm2)

theorem findMember_spec {db : DB} {tid uid : Nat} {m : TripMember}
    (h : findMember db tid uid = some m) :
    m ∈ db.members ∧ m.trip_id = tid ∧ m.user_id = uid := by
  have h1 := List.mem_of_find?_eq_some h
  have h2 := List.find?_some h
  simp only [Bool.and_eq_true, beq_iff_eq] at h2
  exact ⟨h1, h2.1, h2.2⟩

theorem findMember_none {db : DB} {tid uid : Nat}
    (h : findMember db tid uid = none) :
    ∀ m ∈ db.members, ¬(m.trip_id = tid ∧ m.user_id = uid) := by
  intro m hm
  have := List.find?_eq_none.mp h m hm
  simpa only [Bool.and_eq_true, beq_iff_eq] using this

theorem findTrip_spec {db : DB} {tid : Nat} {t : Trip}
    (h : findTrip db tid = some t) : t ∈ db.trips ∧ t.id = tid := by
  have h1 := List.mem_of_find?_eq_some h
  have h2 := List.find?_some h
  simp only [beq_iff_eq] at h2
  exact ⟨h1, h2⟩

theorem findTrip_isSome {db : DB} {tid : Nat} {t : Trip}
    (ht : t ∈ db.trips) (hid : t.id = tid) :
    ∃ t2, findTrip db tid = some t2 ∧ t2.id = tid := by
  cases hF : findTrip db tid with
  | none =>
    have := List.find?_eq_none.mp hF t ht
    simp only [beq_iff_eq] at this
    exact absurd hid this
  | some t2 => exact ⟨t2, rfl, (findTrip_spec hF).2⟩

theorem hasPerm_findMember {db : DB} {tid uid : Nat} {p : String}
    (h : has_trip_permission db tid uid p = true) :
    ∃ m, findMember db tid uid = some m ∧ m ∈ db.members ∧
      m.trip_id = tid ∧ m.user_id = uid := by
  unfold has_trip_permission at h
  cases hF : findMember db tid uid with
  | none => rw [hF] at h; simp at h
  | some m => exact ⟨m, rfl, findMember_spec hF⟩

theorem trips_id_inj {l : List Trip} (hp : l.Pairwise (fun a b => a.id ≠ b.id))
    {t1 t2 : Trip} (h1 : t1 ∈ l) (h2 : t2 ∈ l) (h : t1.id = t2.id) : t1 = t2 := by
  induction l with
  | nil => cases h1
  | cons a rest ih =>
    rcases List.pairwise_cons.mp hp with ⟨ha, hrest⟩
    rcases List.mem_cons.mp h1 with rfl | h1b
    · rcases List.mem_cons.mp h2 with rfl | h2b
      · rfl
      · exact absurd h (ha _ h2b)
    · rcases List.mem_cons.mp h2 with rfl | h2b
      · exact absurd h.symm (ha _ h1b)
      · exact ih hrest h1b h2b

/-! ### The reachable-state invariant -/

/-- Facts jointly preserved by every service operation: fresh-id bound and
uniqueness for trip ids, uniqueness of the (trip_id, user_id) membership key,
foreign-key integrity of memberships, and the creator's membership. -/
structure StoreInv (db : DB) : Prop where
  trips_lt : ∀ t ∈ db.trips, t.id < db.nextTripId
  trips_ids : db.trips.Pairwise (fun a b => a.id ≠ b.id)
  members_keys : db.members.Pairwise
    (fun a b => a.trip_id ≠ b.trip_id ∨ a.user_id ≠ b.user_id)
  member_has_trip : ∀ m ∈ db.members, ∃ t ∈ db.trips, t.id = m.trip_id
  creator_member : ∀ t ∈ db.trips,
    ∃ m ∈ db.members, m.trip_id = t.id ∧ m.user_id = t.created_by

theorem StoreInv_empty : StoreInv emptyDB := by
  refine ⟨?_, ?_, ?_, ?_, ?_⟩ <;> simp [emptyDB]

theorem create_trip_fst (db : DB) (tc : TripCreate) (uid : Nat) :
    (create_trip db tc uid).1 =
      ⟨db.nextTripId, tc.title, tc.description, some tc.start_date, some tc.end_date,
       TripStatus.planning, pyDictOr tc.trip_data [], uid⟩ := rfl

theorem create_trip_trips (db : DB) (tc : TripCreate) (uid : Nat) :
    (create_trip db tc uid).2.trips = db.trips ++ [(create_trip db tc uid).1] := rfl

theorem create_trip_members (db : DB) (tc : TripCreate) (uid : Nat) :
    (create_trip db tc uid).2.members = db.members ++
      [⟨db.nextTripId, uid, TripMemberRole.organizer,
        [("edit", .pBool true), ("delete", .pBool true), ("invite", .pBool true),
         ("manage_members", .pBool true)]⟩] := rfl

theorem create_trip_activities (db : DB) (tc : TripCreate) (uid : Nat) :
    (create_trip db tc uid).2.activities = db.activities ++
      [⟨db.nextTripId, some uid, TripActivityType.created,
        ActivityData.createdData tc.title⟩] := rfl

theorem create_trip_next (db : DB) (tc : TripCreate) (uid : Nat) :
    (create_trip db tc uid).2.nextTripId = db.nextTripId + 1 := rfl

theorem StoreInv_addUser (db : DB) (uid : Nat) (hI : StoreInv db) :
    StoreInv { db with users := db.users ++ [uid] } := by
  obtain ⟨h1, h2, h3, h4, h5⟩ := hI
  exact ⟨h1, h2, h3, h4, h5⟩

theorem StoreInv_create (db : DB) (tc : TripCreate) (uid : Nat) (hI : StoreInv db) :
    StoreInv (create_trip db tc uid).2 := by
  obtain ⟨h1, h2, h3, h4, h5⟩ := hI
  have hmlt : ∀ m ∈ db.members, m.trip_id < db.nextTripId := by
    intro m hm
    obtain ⟨t, ht, hid⟩ := h4 m hm
    exact hid ▸ h1 t ht
  refine ⟨?_, ?_, ?_, ?_, ?_⟩
  · intro t ht
    rw [create_trip_trips] at ht
    rw [create_trip_next]
    rcases List.mem_append.mp ht with ht2 | ht2
    · exact Nat.lt_succ_of_lt (h1 t ht2)
    · rw [List.mem_singleton.mp ht2, create_trip_fst]
      exact Nat.lt_succ_self _
  · rw [create_trip_trips]
    rw [List.pairwise_append]
    refine ⟨h2, List.pairwise_singleton _ _, ?_⟩
    intro a ha b hb
    rw [List.mem_singleton.mp hb, create_trip_fst]
    exact Nat.ne_of_lt (h1 a ha)
  · rw [create_trip_members]
    rw [List.pairwise_append]
    refine ⟨h3, List.pairwise_singleton _ _, ?_⟩
    intro a ha b hb
    rw [List.mem_singleton.mp hb]
    exact Or.inl (Nat.ne_of_lt (hmlt a ha))
  · intro m hm
    rw [create_trip_members] at hm
    rw [create_trip_trips]
    rcases List.mem_append.mp hm with hm2 | hm2
    · obtain ⟨t, ht, hid⟩ := h4 m hm2
      exact ⟨t, List.mem_append_left _ ht, hid⟩
    · rw [List.mem_singleton.mp hm2]
      refine ⟨(create_trip db tc uid).1, List.mem_append_right _ (List.mem_singleton_self _), ?_⟩
      rw [create_trip_fst]
  · intro t ht
    rw [create_trip_trips] at ht
    rw [create_trip_members]
    rcases List.mem_append.mp ht with ht2 | ht2
    · obtain ⟨m, hm, hk⟩ := h5 t ht2
      exact ⟨m, List.mem_append_left _ hm, hk⟩
    · rw [List.mem_singleton.mp ht2]
      refine ⟨_, List.mem_append_right _ (List.mem_singleton_self _), ?_⟩
      rw [create_trip_fst]
      exact ⟨rfl, rfl⟩

theorem applyUpdate_id (t : Trip) (u : TripUpdate) : (applyUpdate t u).id = t.id := rfl

theorem applyUpdate_created_by (t : Trip) (u : TripUpdate) :
    (applyUpdate t u).created_by = t.created_by := rfl

/-- Case analysis of `update_trip`: a permission or lookup failure returns
`None` leaving the store untouched; success rewrites the trip row in place
and appends one `updated` activity. -/
theorem update_trip_cases (db : DB) (tid : Nat) (tu : TripUpdate) (uid : Nat) :
    ((update_trip db tid tu uid).1 = none ∧ (update_trip db tid tu uid).2 = db ∧
      (has_trip_permission db tid uid "edit" = false ∨ findTrip db tid = none)) ∨
    (∃ trip, has_trip_permission db tid uid "edit" = true ∧ findTrip db tid = some trip ∧
      (update_trip db tid tu uid).1 = some (applyUpdate trip tu) ∧
      (update_trip db tid tu uid).2 =
        { db with
            trips := db.trips.map (fun t => if t.id == tid then applyUpdate trip tu else t)
            activities := db.activities ++
              [⟨tid, some uid, TripActivityType.updated, ActivityData.updatedData tu⟩] }) := by
  unfold update_trip
  by_cases hp : has_trip_permission db tid uid "edit"
  · cases hT : findTrip db tid with
    | none => exact Or.inl ⟨by simp [hp, hT], by simp [hp, hT], Or.inr rfl⟩
    | some trip =>
      refine Or.inr ⟨trip, hp, rfl, ?_, ?_⟩ <;> simp [hp, hT]
  · rw [Bool.not_eq_true] at hp
    exact Or.inl ⟨by simp [hp], by simp [hp], Or.inl hp⟩

theorem StoreInv_update (db : DB) (tid : Nat) (tu : TripUpdate) (uid : Nat)
    (hI : StoreInv db) : StoreInv (update_trip db tid tu uid).2 := by
  obtain ⟨h1, h2, h3, h4, h5⟩ := hI
  rcases update_trip_cases db tid tu uid with ⟨-, hS, -⟩ | ⟨trip, -, hFT, -, hS⟩
  · rw [hS]; exact ⟨h1, h2, h3, h4, h5⟩
  · rw [hS]
    have htid : trip.id = tid := (findTrip_spec hFT).2
    have htmem : trip ∈ db.trips := (findTrip_spec hFT).1
    have hid : ∀ t : Trip, ((if t.id == tid then applyUpdate trip tu else t) : Trip).id = t.id := by
      intro t
      split
      · next h => rw [applyUpdate_id, htid]; exact (beq_iff_eq.mp h).symm
      · rfl
    refine ⟨?_, ?_, h3, ?_, ?_⟩
    · intro t ht
      simp only [List.mem_map] at ht
      obtain ⟨t0, ht0, rfl⟩ := ht
      rw [hid t0]
      exact h1 t0 ht0
    · refine List.Pairwise.map _ ?_ h2
      intro a b hab
      rw [hid a, hid b]
      exact hab
    · intro m hm
      obtain ⟨t0, ht0, hid0⟩ := h4 m hm
      refine ⟨(if t0.id == tid then applyUpdate trip tu else t0), ?_, ?_⟩
      · exact List.mem_map_of_mem _ ht0
      · rw [hid t0]; exact hid0
    · intro t ht
      simp only [List.mem_map] at ht
      obtain ⟨t0, ht0, rfl⟩ := ht
      obtain ⟨m, hm, hk1, hk2⟩ := h5 t0 ht0
      refine ⟨m, hm, ?_, ?_⟩
      · rw [hid t0]; exact hk1
      · have : ((if t0.id == tid then applyUpdate trip tu else t0) : Trip).created_by
            = t0.created_by := by
          split
          · next h =>
            have ht0trip : t0 = trip :=
              trips_id_inj h2 ht0 htmem (by rw [htid]; exact beq_iff_eq.mp h)
            rw [applyUpdate_created_by, ht0trip]
          · rfl
        rw [this]; exact hk2

/-- Case analysis of `delete_trip`. -/
theorem delete_trip_cases (db : DB) (tid uid : Nat) :
    ((delete_trip db tid uid).1 = false ∧ (delete_trip db tid uid).2 = db) ∨
    ((delete_trip db tid uid).1 = true ∧
      has_trip_permission db tid uid "delete" = true ∧ (findTrip db tid).isSome ∧
      (delete_trip db tid uid).2 =
        { db with
            trips := db.trips.filter (fun t => t.id != tid)
            members := db.members.filter (fun m => m.trip_id != tid)
            activities := db.activities.filter (fun a => a.trip_id != tid) }) := by
  unfold delete_trip
  by_cases hp : has_trip_permission db tid uid "delete"
  · cases hT : findTrip db tid with
    | none => exact Or.inl ⟨by simp [hp, hT], by simp [hp, hT]⟩
    | some trip =>
      refine Or.inr ⟨by simp [hp, hT], hp, rfl, by simp [hp, hT]⟩
  · rw [Bool.not_eq_true] at hp
    exact Or.inl ⟨by simp [hp], by simp [hp]⟩

theorem StoreInv_delete (db : DB) (tid uid : Nat) (hI : StoreInv db) :
    StoreInv (delete_trip db tid uid).2 := by
  obtain ⟨h1, h2, h3, h4, h5⟩ := hI
  rcases delete_trip_cases db tid uid with ⟨-, hS⟩ | ⟨-, -, -, hS⟩
  · rw [hS]; exact ⟨h1, h2, h3, h4, h5⟩
  · rw [hS]
    refine ⟨?_, ?_, ?_, ?_, ?_⟩
    · intro t ht
      exact h1 t (List.mem_of_mem_filter ht)
    · exact List.Pairwise.sublist (List.filter_sublist _) h2
    · exact List.Pairwise.sublist (List.filter_sublist _) h3
    · intro m hm
      have hm2 := List.mem_of_mem_filter hm
      have hmp := List.of_mem_filter hm
      simp only [bne_iff_ne, ne_eq, decide_eq_true_eq] at hmp
      obtain ⟨t, ht, hid⟩ := h4 m hm2
      refine ⟨t, List.mem_filter.mpr ⟨ht, ?_⟩, hid⟩
      simp only [bne_iff_ne, ne_eq, decide_eq_true_eq]
      rw [hid]; exact hmp
    · intro t ht
      have ht2 := List.mem_of_mem_filter ht
      have htp := List.of_mem_filter ht
      simp only [bne_iff_ne, ne_eq, decide_eq_true_eq] at htp
      obtain ⟨m, hm, hk1, hk2⟩ := h5 t ht2
      refine ⟨m, List.mem_filter.mpr ⟨hm, ?_⟩, hk1, hk2⟩
      simp only [bne_iff_ne, ne_eq, decide_eq_true_eq]
      rw [hk1]; exact htp

/-- Case analysis of `add_trip_member`: any of the three raises leaves the
store untouched; success appends one membership and one `member_added`
activity. -/
theorem add_trip_member_cases (db : DB) (tid : Nat) (md : TripMemberCreate) (uid : Nat) :
    ((∃ e, (add_trip_member db tid md uid).1 = .err e) ∧
      (add_trip_member db tid md uid).2 = db) ∨
    (has_trip_permission db tid uid "invite" = true ∧ userExists db md.user_id = true ∧
      findMember db tid md.user_id = none ∧
      (add_trip_member db tid md uid).1 =
        .ok ⟨tid, md.user_id, md.role,
             pyDictOr md.permissions (get_default_permissions md.role)⟩ ∧
      (add_trip_member db tid md uid).2 =
        { db with
            members := db.members ++
              [⟨tid, md.user_id, md.role,
                pyDictOr md.permissions (get_default_permissions md.role)⟩]
            activities := db.activities ++
              [⟨tid, some uid, TripActivityType.member_added,
                ActivityData.memberAddedData md.user_id md.role⟩] }) := by
  unfold add_trip_member
  by_cases hp : has_trip_permission db tid uid "invite"
  · by_cases hu : userExists db md.user_id
    · cases hM : findMember db tid md.user_id with
      | some m =>
        exact Or.inl ⟨⟨⟨400, "User is already a member of this trip"⟩,
          by simp [hp, hu, hM]⟩, by simp [hp, hu, hM]⟩
      | none => exact Or.inr ⟨hp, hu, rfl, by simp [hp, hu], by simp [hp, hu]⟩
    · rw [Bool.not_eq_true] at hu
      exact Or.inl ⟨⟨⟨404, "User not found"⟩, by simp [hp, hu]⟩, by simp [hp, hu]⟩
  · rw [Bool.not_eq_true] at hp
    exact Or.inl ⟨⟨⟨403, "No permission to add members to this trip"⟩,
      by simp [hp]⟩, by simp [hp]⟩

theorem StoreInv_addMember (db : DB) (tid : Nat) (md : TripMemberCreate) (uid : Nat)
    (hI : StoreInv db) : StoreInv (add_trip_member db tid md uid).2 := by
  obtain ⟨h1, h2, h3, h4, h5⟩ := hI
  rcases add_trip_member_cases db tid md uid with ⟨-, hS⟩ | ⟨hp, -, hNone, -, hS⟩
  · rw [hS]; exact ⟨h1, h2, h3, h4, h5⟩
  · rw [hS]
    obtain ⟨m0, -, hm0mem, hm0tid, -⟩ := hasPerm_findMember hp
    refine ⟨h1, h2, ?_, ?_, ?_⟩
    · rw [List.pairwise_append]
      refine ⟨h3, List.pairwise_singleton _ _, ?_⟩
      intro a ha b hb
      rw [List.mem_singleton.mp hb]
      have := findMember_none hNone a ha
      rcases not_and_or.mp this with h | h
      · exact Or.inl h
      · exact Or.inr h
    · intro m hm
      rcases List.mem_append.mp hm with hm2 | hm2
      · obtain ⟨t, ht, hid⟩ := h4 m hm2
        exact ⟨t, ht, hid⟩
      · rw [List.mem_singleton.mp hm2]
        obtain ⟨t, ht, hid⟩ := h4 m0 hm0mem
        exact ⟨t, ht, by rw [hid, hm0tid]⟩
    · intro t ht
      obtain ⟨m, hm, hk⟩ := h5 t ht
      exact ⟨m, List.mem_append_left _ hm, hk⟩

/-- Case analysis of `remove_trip_member`: a raise or a missing membership
leaves the store untouched; success removes the one membership row and
appends one `member_removed` activity. -/
theorem remove_trip_member_cases (db : DB) (tid target uid : Nat) :
    ((remove_trip_member db tid target uid).2 = db ∧
      ((∃ e, (remove_trip_member db tid target uid).1 = .err e) ∨
        (remove_trip_member db tid target uid).1 = .ok false)) ∨
    (has_trip_permission db tid uid "manage_members" = true ∧
      (∀ t, findTrip db tid = some t → t.created_by ≠ target) ∧
      (∃ m, findMember db tid target = some m) ∧
      (remove_trip_member db tid target uid).1 = .ok true ∧
      (remove_trip_member db tid target uid).2 =
        { db with
            members := removeFirstMember db.members tid target
            activities := db.activities ++
              [⟨tid, some uid, TripActivityType.member_removed,
                ActivityData.memberRemovedData target⟩] }) := by
  unfold remove_trip_member
  by_cases hp : has_trip_permission db tid uid "manage_members"
  · cases hT : findTrip db tid with
    | some trip =>
      by_cases hc : trip.created_by == target
      · exact Or.inl ⟨by simp [hp, hT, hc],
          Or.inl ⟨⟨400, "Cannot remove trip creator"⟩, by simp [hp, hT, hc]⟩⟩
      · rw [Bool.not_eq_true] at hc
        cases hM : findMember db tid target with
        | none => exact Or.inl ⟨by simp [hp, hT, hc, hM], Or.inr (by simp [hp, hT, hc, hM])⟩
        | some m =>
          refine Or.inr ⟨hp, ?_, ⟨m, rfl⟩, by simp [hp, hT, hc, hM], by simp [hp, hT, hc, hM]⟩
          intro t htt
          cases htt
          simpa using hc
    | none =>
      cases hM : findMember db tid target with
      | none => exact Or.inl ⟨by simp [hp, hT, hM], Or.inr (by simp [hp, hT, hM])⟩
      | some m =>
        refine Or.inr ⟨hp, ?_, ⟨m, rfl⟩, by simp [hp, hT, hM], by simp [hp, hT, hM]⟩
        intro t htt
        exact Option.noConfusion htt
  · rw [Bool.not_eq_true] at hp
    exact Or.inl ⟨by simp [hp],
      Or.inl ⟨⟨403, "No permission to remove members from this trip"⟩, by simp [hp]⟩⟩

theorem StoreInv_removeMember (db : DB) (tid target uid : Nat)
    (hI : StoreInv db) : StoreInv (remove_trip_member db tid target uid).2 := by
  obtain ⟨h1, h2, h3, h4, h5⟩ := hI
  rcases remove_trip_member_cases db tid target uid with ⟨hS, -⟩ | ⟨-, hguard, -, -, hS⟩
  · rw [hS]; exact ⟨h1, h2, h3, h4, h5⟩
  · rw [hS]
    refine ⟨h1, h2, ?_, ?_, ?_⟩
    · exact List.Pairwise.sublist (removeFirstMember_sublist _ _ _) h3
    · intro m hm
      exact h4 m ((removeFirstMember_sublist _ _ _).subset hm)
    · intro t ht
      obtain ⟨m, hm, hk1, hk2⟩ := h5 t ht
      refine ⟨m, mem_removeFirstMember hm ?_, hk1, hk2⟩
      rintro ⟨hmt, hmu⟩
      obtain ⟨t2, hT2, hT2id⟩ := findTrip_isSome ht (by rw [← hk1, hmt])
      have ht2t : t2 = t := trips_id_inj h2 ((findTrip_spec hT2).1) ht (by rw [hT2id, ← hmt, hk1])
      exact hguard t2 hT2 (by rw [ht2t, ← hk2, hmu])

/-- Every service operation preserves the store invariant. -/
theorem StoreInv_step {db db2 : DB} (h : Step db db2) (hI : StoreInv db) : StoreInv db2 := by
  cases h with
  | addUser uid => exact StoreInv_addUser db uid hI
  | createTrip tc uid => exact StoreInv_create db tc uid hI
  | updateTrip tid tu uid => exact StoreInv_update db tid tu uid hI
  | deleteTrip tid uid => exact StoreInv_delete db tid uid hI
  | addMember tid md uid => exact StoreInv_addMember db tid md uid hI
  | removeMember tid target uid => exact StoreInv_removeMember db tid target uid hI

/-- The invariant holds in every reachable store state. -/
theorem StoreInv_reachable {db : DB} (h : Reachable db) : StoreInv db := by
  induction h with
  | empty => exact StoreInv_empty
  | step _ hstep ih => exact StoreInv_step hstep ih

/-! ### Claim theorems -/

theorem countP_le_one_of_pairwise {l : List TripMember} {tid uid : Nat}
    (hp : l.Pairwise (fun a b => a.trip_id ≠ b.trip_id ∨ a.user_id ≠ b.user_id)) :
    l.countP (fun m => m.trip_id == tid && m.user_id == uid) ≤ 1 := by
  induction l with
  | nil => simp
  | cons a rest ih =>
    rcases List.pairwise_cons.mp hp with ⟨ha, hrest⟩
    rw [List.countP_cons]
    by_cases hm : (a.trip_id == tid && a.user_id == uid) = true
    · have h0 : rest.countP (fun m => m.trip_id == tid && m.user_id == uid) = 0 := by
        rw [List.countP_eq_zero]
        intro m hmem
        simp only [Bool.and_eq_true, beq_iff_eq] at hm ⊢
        rintro ⟨hm1, hm2⟩
        rcases ha m hmem with h | h
        · exact h (by rw [hm.1, hm1])
        · exact h (by rw [hm.2, hm2])
      rw [h0, hm]
      simp
    · rw [Bool.not_eq_true] at hm
      rw [hm]
      simpa using ih hrest

/-- The scenario state `dbM` (two users, one trip, creator plus one added
participant) is reachable from the empty store. -/
theorem dbM_reachable : Reachable dbM :=
  Reachable.step
    (Reachable.step
      (Reachable.step
        (Reachable.step Reachable.empty (Step.addUser emptyDB 1))
        (Step.addUser dbU1 2))
      (Step.createTrip dbU2 tcW 1))
    (Step.addMember dbT 0 mdP 1)

/-- C8: in every state reachable by service operations from the empty store,
each (trip_id, user_id) pair has at most one TripMember row. -/
theorem C8_member_uniqueness (db : DB) (tid uid : Nat) (h : Reachable db) :
    db.members.countP (fun m => m.trip_id == tid && m.user_id == uid) ≤ 1 :=
  countP_le_one_of_pairwise (StoreInv_reachable h).members_keys

theorem C8_member_uniqueness_witness :
    dbM.members.countP (fun m => m.trip_id == 0 && m.user_id == 2) ≤ 1 :=
  C8_member_uniqueness dbM 0 2 dbM_reachable

/-- C9: in every reachable state, every existing Trip row has a TripMember
row whose user_id is the trip's created_by. -/
theorem C9_creator_membership (db : DB) (h : Reachable db) :
    ∀ t ∈ db.trips, ∃ m ∈ db.members, m.trip_id = t.id ∧ m.user_id = t.created_by :=
  (StoreInv_reachable h).creator_member

theorem C9_creator_membership_witness :
    dbM.members.any (fun m => m.trip_id == 0 && m.user_id == 1) = true := by
  obtain ⟨m, hm, h1, h2⟩ :=
    C9_creator_membership dbM dbM_reachable (create_trip dbU2 tcW 1).1 (by decide)
  exact List.any_eq_true.mpr ⟨m, hm, by simp [h1, h2]; constructor <;> rfl⟩

/-- C1 counterexample: at a concrete createTrip call, the creator's
membership row does NOT carry all five named permissions equal to true —
the permission dict written by `create_trip` has no "view" key at all. -/
theorem C1_counterexample :
    ¬ (∃ m ∈ (create_trip emptyDB tcC1 7).2.members,
        m.trip_id = (create_trip emptyDB tcC1 7).1.id ∧ m.user_id = 7 ∧
        m.role = TripMemberRole.organizer ∧
        dictGet m.permissions "edit" = some (PyVal.pBool true) ∧
        dictGet m.permissions "delete" = some (PyVal.pBool true) ∧
        dictGet m.permissions "invite" = some (PyVal.pBool true) ∧
        dictGet m.permissions "manage_members" = some (PyVal.pBool true) ∧
        dictGet m.permissions "view" = some (PyVal.pBool true)) := by
  decide

/-- C1 (amended): every createTrip call inserts a TripMember for the acting
user with role organizer whose permission map sets edit, delete, invite and
manage_members to true but contains no "view" key, and a `created`
TripActivity for the new trip with activity_data {title: the trip's title}
and user_id the acting user. -/
theorem C1_creator_membership_and_activity (db : DB) (tc : TripCreate) (uid : Nat) :
    ∃ m ∈ (create_trip db tc uid).2.members,
      m.trip_id = (create_trip db tc uid).1.id ∧ m.user_id = uid ∧
      m.role = TripMemberRole.organizer ∧
      dictGet m.permissions "edit" = some (PyVal.pBool true) ∧
      dictGet m.permissions "delete" = some (PyVal.pBool true) ∧
      dictGet m.permissions "invite" = some (PyVal.pBool true) ∧
      dictGet m.permissions "manage_members" = some (PyVal.pBool true) ∧
      dictGet m.permissions "view" = none ∧
      ∃ a ∈ (create_trip db tc uid).2.activities,
        a.trip_id = (create_trip db tc uid).1.id ∧
        a.activity_type = TripActivityType.created ∧
        a.activity_data = ActivityData.createdData (create_trip db tc uid).1.title ∧
        a.user_id = some uid := by
  rw [create_trip_members]
  refine ⟨_, List.mem_append_right _ (List.mem_singleton_self _),
    rfl, rfl, rfl, ?_, ?_, ?_, ?_, ?_, ?_⟩
  · rfl
  · rfl
  · rfl
  · rfl
  · rfl
  · rw [create_trip_activities]
    exact ⟨_, List.mem_append_right _ (List.mem_singleton_self _), rfl, rfl, rfl, rfl⟩

/-- C2 counterexample: in the scenario state, user 2 (a participant without
manage_members) targeting the creator (user 1) gets the 403 Forbidden
raise from the permission check, not the 400 "Cannot remove trip creator"
invalid-operation raise — so the InvalidOperation outcome is not
independent of the acting user's permissions. -/
theorem C2_counterexample :
    (findTrip dbM 0).map Trip.created_by = some 1 ∧ (2 : Nat) ≠ 1 ∧
    (remove_trip_member dbM 0 1 2).1 =
      SvcResult.err ⟨403, "No permission to remove members from this trip"⟩ ∧
    (remove_trip_member dbM 0 1 2).1 ≠
      SvcResult.err ⟨400, "Cannot remove trip creator"⟩ := by
  decide

/-- C2 (amended): when the target of removeTripMember is the trip's
created_by, the call always fails and leaves the store unchanged (so the
creator's membership remains); the failure is the 400 "Cannot remove trip
creator" InvalidOperation raise when the acting user holds manage_members,
and the 403 Forbidden raise (from the earlier permission check) when they
do not. -/
theorem C2_remove_creator_guard (db : DB) (tid target actor : Nat) (t : Trip)
    (ht : findTrip db tid = some t) (hc : t.created_by = target) :
    (remove_trip_member db tid target actor).2 = db ∧
    (has_trip_permission db tid actor "manage_members" = true →
      (remove_trip_member db tid target actor).1 =
        SvcResult.err ⟨400, "Cannot remove trip creator"⟩) ∧
    (has_trip_permission db tid actor "manage_members" = false →
      (remove_trip_member db tid target actor).1 =
        SvcResult.err ⟨403, "No permission to remove members from this trip"⟩) := by
  unfold remove_trip_member
  by_cases hp : has_trip_permission db tid actor "manage_members"
  · refine ⟨?_, ?_, ?_⟩
    · simp [hp, ht, hc]
    · intro _; simp [hp, ht, hc]
    · intro hfalse; rw [hp] at hfalse; exact Bool.noConfusion hfalse
  · rw [Bool.not_eq_true] at hp
    refine ⟨?_, ?_, ?_⟩
    · simp [hp]
    · intro htrue; rw [hp] at htrue; exact Bool.noConfusion htrue
    · intro _; simp [hp]

theorem C2_remove_creator_guard_witness :
    (remove_trip_member dbM 0 1 1).2 = dbM ∧
    (remove_trip_member dbM 0 1 1).1 =
      SvcResult.err ⟨400, "Cannot remove trip creator"⟩ := by
  have h := C2_remove_creator_guard dbM 0 1 1 (create_trip dbU2 tcW 1).1
    (by decide) (by decide)
  exact ⟨h.1, h.2.1 (by decide)⟩

/-- C3: updateTrip yields the same not-found outcome (`None`) whether the
trip does not exist or the trip exists but the acting user lacks the edit
permission, and in both runs the store — trips and activities included —
is left exactly unchanged. -/
theorem C3_update_notfound_indistinguishable (db1 db2 : DB) (tid1 tid2 : Nat)
    (patch : TripUpdate) (uid1 uid2 : Nat)
    (h1 : findTrip db1 tid1 = none)
    (_hex : (findTrip db2 tid2).isSome = true)
    (h3 : has_trip_permission db2 tid2 uid2 "edit" = false) :
    (update_trip db1 tid1 patch uid1).1 = none ∧
    (update_trip db2 tid2 patch uid2).1 = none ∧
    (update_trip db1 tid1 patch uid1).1 = (update_trip db2 tid2 patch uid2).1 ∧
    (update_trip db1 tid1 patch uid1).2 = db1 ∧
    (update_trip db2 tid2 patch uid2).2 = db2 := by
  have r1 : (update_trip db1 tid1 patch uid1).1 = none ∧
      (update_trip db1 tid1 patch uid1).2 = db1 := by
    rcases update_trip_cases db1 tid1 patch uid1 with ⟨ha, hb, -⟩ | ⟨trip, -, hT, -, -⟩
    · exact ⟨ha, hb⟩
    · rw [h1] at hT; exact Option.noConfusion hT
  have r2 : (update_trip db2 tid2 patch uid2).1 = none ∧
      (update_trip db2 tid2 patch uid2).2 = db2 := by
    rcases update_trip_cases db2 tid2 patch uid2 with ⟨ha, hb, -⟩ | ⟨trip, hperm, -, -, -⟩
    · exact ⟨ha, hb⟩
    · rw [h3] at hperm; exact Bool.noConfusion hperm
  exact ⟨r1.1, r2.1, by rw [r1.1, r2.1], r1.2, r2.2⟩

theorem C3_update_notfound_witness :
    (update_trip emptyDB 5 tuEmpty 1).1 = none ∧
    (update_trip dbM 0 tuEmpty 2).1 = none ∧
    (update_trip emptyDB 5 tuEmpty 1).1 = (update_trip dbM 0 tuEmpty 2).1 ∧
    (update_trip emptyDB 5 tuEmpty 1).2 = emptyDB ∧
    (update_trip dbM 0 tuEmpty 2).2 = dbM :=
  C3_update_notfound_indistinguishable emptyDB dbM 5 0 tuEmpty 1 2
    (by decide) (by decide) (by decide)

/-- C4 counterexample: a caller-supplied permission map is NOT always taken
verbatim — an explicitly supplied empty map `{}` falls through Python's
`or` to the role default, so the created member's permissions are the
viewer defaults rather than the supplied empty map. -/
theorem C4_counterexample :
    mdEmptyPerm.permissions = some [] ∧
    (add_trip_member dbT 0 mdEmptyPerm 1).1 =
      SvcResult.ok ⟨0, 2, TripMemberRole.viewer,
        get_default_permissions TripMemberRole.viewer⟩ ∧
    get_default_permissions TripMemberRole.viewer ≠ [] := by
  decide

/-- C4 (amended): on a successful addTripMember, a caller-supplied
NON-EMPTY permission map is taken exactly, with no merge with the role
default; a missing (`None`) or empty map yields the §4.1 role default
(organizer: all five true; participant and viewer: all false except view). -/
theorem C4_permission_map_choice (db : DB) (tid : Nat) (md : TripMemberCreate)
    (uid : Nat) (m : TripMember)
    (h : (add_trip_member db tid md uid).1 = SvcResult.ok m) :
    (∀ ps, md.permissions = some ps → ps ≠ [] → m.permissions = ps) ∧
    ((md.permissions = none ∨ md.permissions = some []) →
      m.permissions = get_default_permissions md.role ∧
      dictGet m.permissions "view" = some (PyVal.pBool true) ∧
      (md.role = TripMemberRole.organizer →
        dictGet m.permissions "edit" = some (PyVal.pBool true) ∧
        dictGet m.permissions "delete" = some (PyVal.pBool true) ∧
        dictGet m.permissions "invite" = some (PyVal.pBool true) ∧
        dictGet m.permissions "manage_members" = some (PyVal.pBool true)) ∧
      (md.role ≠ TripMemberRole.organizer →
        dictGet m.permissions "edit" = some (PyVal.pBool false) ∧
        dictGet m.permissions "delete" = some (PyVal.pBool false) ∧
        dictGet m.permissions "invite" = some (PyVal.pBool false) ∧
        dictGet m.permissions "manage_members" = some (PyVal.pBool false))) := by
  rcases add_trip_member_cases db tid md uid with ⟨⟨e, he⟩, -⟩ | ⟨-, -, -, hok, -⟩
  · rw [h] at he; exact SvcResult.noConfusion he
  · rw [h] at hok
    injection hok with hminj
    have hperm0 : m.permissions =
        pyDictOr md.permissions (get_default_permissions md.role) := by
      rw [hminj]
    constructor
    · intro ps hps hne
      rw [hperm0, hps]
      show (if ps.isEmpty then get_default_permissions md.role else ps) = ps
      rw [if_neg (fun hcon => hne (by simpa using hcon))]
    · intro hcase
      have hd : m.permissions = get_default_permissions md.role := by
        rcases hcase with hnone | hempty
        · rw [hperm0, hnone]
          rfl
        · rw [hperm0, hempty]
          rfl
      refine ⟨hd, ?_, ?_, ?_⟩
      · rw [hd]
        cases md.role <;> decide
      · intro hrole
        rw [hd, hrole]
        decide
      · intro hrole
        rw [hd]
        cases hr : md.role
        · exact absurd hr hrole
        · decide
        · decide

theorem C4_permission_map_choice_witness :
    (add_trip_member dbT 0 mdOverride 1).1 = SvcResult.ok mOverride ∧
    mOverride.permissions = [("edit", PyVal.pBool true)] := by
  have hok : (add_trip_member dbT 0 mdOverride 1).1 = SvcResult.ok mOverride := by decide
  exact ⟨hok,
    (C4_permission_map_choice dbT 0 mdOverride 1 mOverride hok).1
      [("edit", PyVal.pBool true)] rfl (by decide)⟩

/-- C5 counterexample: a successful deleteTrip appends no TripActivity —
on the concrete one-trip state it returns True while the activity table
shrinks from the one `created` record to empty (the trip's activities are
removed with the trip). -/
theorem C5_counterexample :
    (delete_trip dbT 0 1).1 = true ∧
    dbT.activities.length = 1 ∧
    (delete_trip dbT 0 1).2.activities = [] := by
  decide

/-- C5 (amended): the activity table after any run of any of the five
mutating operations is fully characterized — createTrip always appends
exactly one TripActivity for the new trip; updateTrip, addTripMember and
removeTripMember append exactly one TripActivity for the affected trip
when they succeed and leave the activity table unchanged when they fail;
deleteTrip never appends an activity: it leaves the table unchanged on
failure and on success removes exactly the deleted trip's activity
records (the store-side cascade), which is the only way any existing
TripActivity record is ever updated or deleted. -/
theorem C5_activity_side_effects (db : DB) (tc : TripCreate) (tu : TripUpdate)
    (md : TripMemberCreate) (tid uid target : Nat) :
    (∃ a, a.trip_id = (create_trip db tc uid).1.id ∧
      (create_trip db tc uid).2.activities = db.activities ++ [a]) ∧
    (((update_trip db tid tu uid).1 = none ∧
        (update_trip db tid tu uid).2.activities = db.activities) ∨
      (∃ t a, (update_trip db tid tu uid).1 = some t ∧ a.trip_id = tid ∧
        (update_trip db tid tu uid).2.activities = db.activities ++ [a])) ∧
    (((∃ e, (add_trip_member db tid md uid).1 = SvcResult.err e) ∧
        (add_trip_member db tid md uid).2.activities = db.activities) ∨
      (∃ m a, (add_trip_member db tid md uid).1 = SvcResult.ok m ∧ a.trip_id = tid ∧
        (add_trip_member db tid md uid).2.activities = db.activities ++ [a])) ∧
    ((((∃ e, (remove_trip_member db tid target uid).1 = SvcResult.err e) ∨
        (remove_trip_member db tid target uid).1 = SvcResult.ok false) ∧
        (remove_trip_member db tid target uid).2.activities = db.activities) ∨
      ((remove_trip_member db tid target uid).1 = SvcResult.ok true ∧
        ∃ a, a.trip_id = tid ∧
          (remove_trip_member db tid target uid).2.activities = db.activities ++ [a])) ∧
    (((delete_trip db tid uid).1 = false ∧
        (delete_trip db tid uid).2.activities = db.activities) ∨
      ((delete_trip db tid uid).1 = true ∧
        (delete_trip db tid uid).2.activities =
          db.activities.filter (fun a => a.trip_id != tid))) := by
  refine ⟨?_, ?_, ?_, ?_, ?_⟩
  · exact ⟨_, rfl, create_trip_activities db tc uid⟩
  · rcases update_trip_cases db tid tu uid with ⟨ha, hb, -⟩ | ⟨trip, -, -, hr, hS⟩
    · exact Or.inl ⟨ha, by rw [hb]⟩
    · exact Or.inr ⟨applyUpdate trip tu, _, hr, rfl, by rw [hS]⟩
  · rcases add_trip_member_cases db tid md uid with ⟨he, hb⟩ | ⟨-, -, -, hr, hS⟩
    · exact Or.inl ⟨he, by rw [hb]⟩
    · exact Or.inr ⟨_, _, hr, rfl, by rw [hS]⟩
  · rcases remove_trip_member_cases db tid target uid with ⟨hb, hf⟩ | ⟨-, -, -, hr, hS⟩
    · exact Or.inl ⟨hf, by rw [hb]⟩
    · exact Or.inr ⟨hr, _, rfl, by rw [hS]⟩
  · rcases delete_trip_cases db tid uid with ⟨hf, hb⟩ | ⟨ht, -, -, hS⟩
    · exact Or.inl ⟨hf, by rw [hb]⟩
    · exact Or.inr ⟨ht, by rw [hS]⟩

theorem C5_activity_side_effects_witness :
    (create_trip dbM3 tcW 1).2.activities.length = dbM3.activities.length + 1 ∧
    (update_trip dbM3 0 tuEmpty 1).2.activities.length = dbM3.activities.length + 1 ∧
    (add_trip_member dbM3 0 mdNew 1).2.activities.length = dbM3.activities.length + 1 ∧
    (remove_trip_member dbM3 0 2 1).2.activities.length = dbM3.activities.length + 1 ∧
    (delete_trip dbM3 0 1).1 = true ∧
    (delete_trip dbM3 0 1).2.activities =
      dbM3.activities.filter (fun a => a.trip_id != 0) := by
  obtain ⟨⟨a1, -, e1⟩, hu, ha, hr, hd⟩ :=
    C5_activity_side_effects dbM3 tcW tuEmpty mdNew 0 1 2
  refine ⟨by rw [e1]; simp, ?_, ?_, ?_, ?_, ?_⟩
  · rcases hu with ⟨hn, -⟩ | ⟨t, a, -, -, e⟩
    · exact absurd hn (by decide)
    · rw [e]; simp
  · rcases ha with ⟨⟨e0, he⟩, -⟩ | ⟨m, a, -, -, e⟩
    · have hok : (add_trip_member dbM3 0 mdNew 1).1 =
          SvcResult.ok ⟨0, 3, TripMemberRole.participant,
            get_default_permissions TripMemberRole.participant⟩ := by decide
      rw [hok] at he
      exact SvcResult.noConfusion he
    · rw [e]; simp
  · rcases hr with ⟨hfail, -⟩ | ⟨-, a, -, e⟩
    · have hok : (remove_trip_member dbM3 0 2 1).1 = SvcResult.ok true := by decide
      rcases hfail with ⟨e0, he⟩ | hf
      · rw [hok] at he
        exact SvcResult.noConfusion he
      · rw [hok] at hf
        injection hf with hb
        exact Bool.noConfusion hb
    · rw [e]; simp
  · rcases hd with ⟨hf, -⟩ | ⟨ht, -⟩
    · exact absurd hf (by decide)
    · exact ht
  · rcases hd with ⟨hf, -⟩ | ⟨-, e⟩
    · exact absurd hf (by decide)
    · exact e

/-- C6: addTripMember raises 403 Forbidden exactly when the acting user
lacks invite; given invite, it raises 404 NotFound exactly when the target
user does not exist; given both, it raises the 400 already-a-member
conflict exactly when a membership for the pair exists; and given all
three checks pass it succeeds, inserts the membership, and appends one
`member_added` activity with {added_user_id, role} — the checks applying
in that order. -/
theorem C6_add_member_error_order (db : DB) (tid : Nat) (md : TripMemberCreate)
    (uid : Nat) :
    ((add_trip_member db tid md uid).1 =
        SvcResult.err ⟨403, "No permission to add members to this trip"⟩ ↔
      has_trip_permission db tid uid "invite" = false) ∧
    (has_trip_permission db tid uid "invite" = true →
      ((add_trip_member db tid md uid).1 = SvcResult.err ⟨404, "User not found"⟩ ↔
        userExists db md.user_id = false)) ∧
    (has_trip_permission db tid uid "invite" = true → userExists db md.user_id = true →
      ((add_trip_member db tid md uid).1 =
          SvcResult.err ⟨400, "User is already a member of this trip"⟩ ↔
        (findMember db tid md.user_id).isSome = true)) ∧
    (has_trip_permission db tid uid "invite" = true → userExists db md.user_id = true →
      findMember db tid md.user_id = none →
      (add_trip_member db tid md uid).1 =
        SvcResult.ok ⟨tid, md.user_id, md.role,
          pyDictOr md.permissions (get_default_permissions md.role)⟩ ∧
      (add_trip_member db tid md uid).2.members =
        db.members ++ [⟨tid, md.user_id, md.role,
          pyDictOr md.permissions (get_default_permissions md.role)⟩] ∧
      (add_trip_member db tid md uid).2.activities =
        db.activities ++ [⟨tid, some uid, TripActivityType.member_added,
          ActivityData.memberAddedData md.user_id md.role⟩]) := by
  unfold add_trip_member
  by_cases hp : has_trip_permission db tid uid "invite"
  · by_cases hu : userExists db md.user_id
    · cases hM : findMember db tid md.user_id with
      | some m0 =>
        refine ⟨by simp [hp, hu], fun _ => by simp [hp, hu], fun _ _ => by simp [hp, hu], ?_⟩
        intro _ _ hcontra
        exact Option.noConfusion hcontra
      | none =>
        exact ⟨by simp [hp, hu], fun _ => by simp [hp, hu], fun _ _ => by simp [hp, hu],
          fun _ _ _ => ⟨by simp [hp, hu], by simp [hp, hu], by simp [hp, hu]⟩⟩
    · rw [Bool.not_eq_true] at hu
      refine ⟨by simp [hp, hu], fun _ => by simp [hp, hu], ?_, ?_⟩
      · intro _ hcontra
        rw [hu] at hcontra
        exact Bool.noConfusion hcontra
      · intro _ hcontra _
        rw [hu] at hcontra
        exact Bool.noConfusion hcontra
  · rw [Bool.not_eq_true] at hp
    refine ⟨by simp [hp], ?_, ?_, ?_⟩
    · intro hcontra
      rw [hp] at hcontra
      exact Bool.noConfusion hcontra
    · intro hcontra _
      rw [hp] at hcontra
      exact Bool.noConfusion hcontra
    · intro hcontra _ _
      rw [hp] at hcontra
      exact Bool.noConfusion hcontra

theorem C6_add_member_error_order_witness :
    (add_trip_member dbT 0 mdP 1).1 =
      SvcResult.ok ⟨0, 2, TripMemberRole.participant,
        pyDictOr mdP.permissions (get_default_permissions TripMemberRole.participant)⟩ ∧
    (add_trip_member dbT 0 mdP 1).2.members =
      dbT.members ++ [⟨0, 2, TripMemberRole.participant,
        pyDictOr mdP.permissions (get_default_permissions TripMemberRole.participant)⟩] ∧
    (add_trip_member dbT 0 mdP 1).2.activities =
      dbT.activities ++ [⟨0, some 1, TripActivityType.member_added,
        ActivityData.memberAddedData 2 TripMemberRole.participant⟩] :=
  (C6_add_member_error_order dbT 0 mdP 1).2.2.2 (by decide) (by decide) (by decide)

/-- C7: hasPermission is false when no membership exists for the pair, and
with a membership present it is false when the named key is absent from
the permission map or maps to false, true when it maps to true. -/
theorem C7_has_permission_lookup (db : DB) (tid uid : Nat) (p : String) :
    (findMember db tid uid = none → has_trip_permission db tid uid p = false) ∧
    (∀ m, findMember db tid uid = some m →
      ((dictGet m.permissions p = none → has_trip_permission db tid uid p = false) ∧
       (dictGet m.permissions p = some (PyVal.pBool false) →
         has_trip_permission db tid uid p = false) ∧
       (dictGet m.permissions p = some (PyVal.pBool true) →
         has_trip_permission db tid uid p = true))) := by
  constructor
  · intro h
    unfold has_trip_permission
    rw [h]
  · intro m hm
    refine ⟨?_, ?_, ?_⟩ <;> intro hv <;> unfold has_trip_permission <;> rw [hm]
    · simp [hv]
    · simp [hv, PyVal.truthy]
    · have hne : m.permissions.isEmpty = false := by
        cases hperm : m.permissions with
        | nil =>
          rw [hperm] at hv
          simp [dictGet] at hv
        | cons a rest => rfl
      simp [hne, hv, PyVal.truthy]

theorem C7_has_permission_lookup_witness :
    has_trip_permission dbM 0 2 "view" = true := by
  have h := C7_has_permission_lookup dbM 0 2 "view"
  exact (h.2 mPart (by decide)).2.2 (by decide)

theorem find?_append_of_none {α : Type} (l1 l2 : List α) (p : α → Bool)
    (h : l1.find? p = none) : (l1 ++ l2).find? p = l2.find? p := by
  induction l1 with
  | nil => rfl
  | cons a rest ih =>
    by_cases hpa : p a = true
    · rw [List.find?_cons_of_pos _ hpa] at h
      exact Option.noConfusion h
    · rw [Bool.not_eq_true] at hpa
      rw [List.find?_cons_of_neg _ (by rw [hpa]; exact Bool.noConfusion)] at h
      rw [List.cons_append, List.find?_cons_of_neg _ (by rw [hpa]; exact Bool.noConfusion)]
      exact ih h

/-- C10: the permission map is not validated to booleans — addTripMember
stores whatever values the caller supplies, and hasPermission applied to
the resulting membership returns the Python truthiness of the stored
value under the named key (so a stored non-empty string like "no" counts
as having the permission). -/
theorem C10_permission_truthiness (db : DB) (tid : Nat) (md : TripMemberCreate)
    (uid : Nat) (m : TripMember) (p : String) (v : PyVal)
    (hok : (add_trip_member db tid md uid).1 = SvcResult.ok m)
    (hv : dictGet m.permissions p = some v) :
    has_trip_permission (add_trip_member db tid md uid).2 tid md.user_id p =
      v.truthy := by
  rcases add_trip_member_cases db tid md uid with ⟨⟨e, he⟩, -⟩ | ⟨-, -, hnone, hok2, hS⟩
  · rw [hok] at he; exact SvcResult.noConfusion he
  · rw [hok] at hok2
    injection hok2 with hminj
    have hfm : findMember (add_trip_member db tid md uid).2 tid md.user_id = some m := by
      rw [hS]
      show List.find? (fun x => x.trip_id == tid && x.user_id == md.user_id)
          (db.members ++ [⟨tid, md.user_id, md.role,
            pyDictOr md.permissions (get_default_permissions md.role)⟩]) = some m
      rw [find?_append_of_none _ _ _ hnone]
      rw [List.find?_cons_of_pos _ (by simp)]
      rw [hminj]
    have hne : m.permissions.isEmpty = false := by
      cases hp2 : m.permissions with
      | nil =>
        rw [hp2] at hv
        simp [dictGet] at hv
      | cons a rest => rfl
    unfold has_trip_permission
    rw [hfm]
    simp [hne, hv]

theorem C10_permission_truthiness_witness :
    has_trip_permission (add_trip_member dbT 0 mdStr 1).2 0 2 "edit" = true := by
  have h := C10_permission_truthiness dbT 0 mdStr 1 mStr "edit" (PyVal.pStr "no")
    (by decide) (by decide)
  simpa using h
